import Mathlib

/-!
Verification development for `github_org_stats.py`.

Shallow embedding of the pure logic of the tool's main routines:
the retry/error-classification wrapper `robust_github_call` with its
process-lifetime forbidden cache and `gh_safe` front end, the GitHub App
token manager's installation-token cache, the bot-account filter, the
language-name sanitizer, the Excel column-name sanitizer, the
installation-id parser, and the per-organization repository cap from
`main`.

Modelling conventions:
- Python dicts are association lists with Python's insertion semantics
  (updating an existing key keeps its position, a new key is appended);
- timestamps (`time.time()` floats) are integers — every comparison in
  the modelled code is an order comparison, so the ordered-field
  structure of float never matters;
- exceptions are explicit outcome constructors; a function that Python
  lets propagate an exception returns `Except.error` in the model;
- strings are processed over their character lists with structurally
  recursive helpers so that all definitions reduce in the kernel.
-/

namespace GithubOrgStats

/-- Python dict assignment `d[k] = v` on an association list: an existing
key is updated in place, a new key is appended at the end. -/
def dictInsert {κ α : Type} [DecidableEq κ] (l : List (κ × α)) (k : κ) (v : α) :
    List (κ × α) :=
  if k ∈ l.map Prod.fst then
    l.map (fun p => if p.1 = k then (p.1, v) else p)
  else
    l ++ [(k, v)]

/-- Outcome of one invocation of the wrapped operation inside
`robust_github_call`: a normal return, or one of the exception classes
the Python code dispatches on (`RateLimitExceededException`,
`UnknownObjectException`, other `GithubException` with its HTTP status,
or any other exception). -/
inductive AttemptRes (V : Type) where
  | ok (v : V)
  | rateLimit
  | notFound
  | ghExc (status : Nat)
  | generic
deriving DecidableEq

/-- Result of a `robust_github_call` / `gh_safe` run: the returned value
(`Except.error` would mean a propagated exception, `Except.ok none` is
Python's `None`), the forbidden cache after the call, and how many times
the wrapped operation was invoked. -/
structure CallOutcome (V : Type) where
  result : Except Nat (Option V)
  cache : List String
  calls : Nat

/-- The `for attempt in range(max_retries + 1)` loop of
`robust_github_call`.  `behavior n` is the outcome of the invocation made
at loop index `n`; `remaining` counts the loop iterations left
(`max_retries + 1 - attempt`); `calls` accumulates the number of
invocations made so far.  Branches mirror the Python `except` clauses:
rate-limit retries until the cap, not-found returns `None` at once,
status 403 records the cache key and returns `None`, status ≥ 500 retries
with backoff until the cap, anything else retries until the cap. -/
def robustLoop {V : Type} (behavior : Nat → AttemptRes V) (maxRetries : Nat)
    (key : String) : List String → Nat → Nat → Nat → CallOutcome V
  | cache, _attempt, 0, calls => ⟨Except.ok none, cache, calls⟩
  | cache, attempt, remaining + 1, calls =>
    match behavior attempt with
    | AttemptRes.ok v => ⟨Except.ok (some v), cache, calls + 1⟩
    | AttemptRes.rateLimit =>
      if attempt < maxRetries then
        robustLoop behavior maxRetries key cache (attempt + 1) remaining (calls + 1)
      else ⟨Except.ok none, cache, calls + 1⟩
    | AttemptRes.notFound => ⟨Except.ok none, cache, calls + 1⟩
    | AttemptRes.ghExc status =>
      if status = 403 then ⟨Except.ok none, key :: cache, calls + 1⟩
      else if 500 ≤ status ∧ attempt < maxRetries then
        robustLoop behavior maxRetries key cache (attempt + 1) remaining (calls + 1)
      else ⟨Except.ok none, cache, calls + 1⟩
    | AttemptRes.generic =>
      if attempt < maxRetries then
        robustLoop behavior maxRetries key cache (attempt + 1) remaining (calls + 1)
      else ⟨Except.ok none, cache, calls + 1⟩

/-- `robust_github_call(func, *args, max_retries=...)`.  `key` is the
cache key `f"{func.__name__}:{str(args)}"` used when a 403 is recorded;
`cache` is the `FORBIDDEN_CACHE` state at entry. -/
def robust_github_call {V : Type} (behavior : Nat → AttemptRes V)
    (maxRetries : Nat) (key : String) (cache : List String) : CallOutcome V :=
  robustLoop behavior maxRetries key cache 0 (maxRetries + 1) 0

/-- `gh_safe(github_client, func, *args)`: short-circuits to `None` when
the key is already in `FORBIDDEN_CACHE`, otherwise delegates to
`robust_github_call`.  The rate-limit pre-flight only sleeps (and ignores
its own failures), so it has no effect on the returned value, the cache,
or the number of invocations of `func`, and is not modelled. -/
def gh_safe {V : Type} (behavior : Nat → AttemptRes V) (maxRetries : Nat)
    (key : String) (cache : List String) : CallOutcome V :=
  if key ∈ cache then ⟨Except.ok none, cache, 0⟩
  else robust_github_call behavior maxRetries key cache

theorem robustLoop_no_raise {V : Type} (behavior : Nat → AttemptRes V)
    (maxRetries : Nat) (key : String) :
    ∀ (remaining : Nat) (cache : List String) (attempt calls : Nat),
      ∃ o, (robustLoop behavior maxRetries key cache attempt remaining calls).result
            = Except.ok o := by
  intro remaining
  induction remaining with
  | zero => intro cache attempt calls; exact ⟨none, rfl⟩
  | succ n ih =>
    intro cache attempt calls
    show ∃ o, (robustLoop behavior maxRetries key cache attempt (n + 1) calls).result
          = Except.ok o
    rw [robustLoop]
    cases hb : behavior attempt with
    | ok v => exact ⟨some v, rfl⟩
    | rateLimit =>
      by_cases hlt : attempt < maxRetries
      · simpa [hlt] using ih cache (attempt + 1) (calls + 1)
      · exact ⟨none, by simp [hlt]⟩
    | notFound => exact ⟨none, rfl⟩
    | ghExc status =>
      by_cases h403 : status = 403
      · exact ⟨none, by simp [h403]⟩
      · by_cases hretry : 500 ≤ status ∧ attempt < maxRetries
        · simpa [h403, hretry] using ih cache (attempt + 1) (calls + 1)
        · exact ⟨none, by simp [h403, hretry]⟩
    | generic =>
      by_cases hlt : attempt < maxRetries
      · simpa [hlt] using ih cache (attempt + 1) (calls + 1)
      · exact ⟨none, by simp [hlt]⟩

theorem robustLoop_cache_mono {V : Type} (behavior : Nat → AttemptRes V)
    (maxRetries : Nat) (key : String) :
    ∀ (remaining : Nat) (cache : List String) (attempt calls : Nat) (k : String),
      k ∈ cache →
      k ∈ (robustLoop behavior maxRetries key cache attempt remaining calls).cache := by
  intro remaining
  induction remaining with
  | zero => intro cache attempt calls k hk; exact hk
  | succ n ih =>
    intro cache attempt calls k hk
    show k ∈ (robustLoop behavior maxRetries key cache attempt (n + 1) calls).cache
    rw [robustLoop]
    cases hb : behavior attempt with
    | ok v => exact hk
    | rateLimit =>
      by_cases hlt : attempt < maxRetries
      · simpa [hlt] using ih cache (attempt + 1) (calls + 1) k hk
      · simpa [hlt] using hk
    | notFound => exact hk
    | ghExc status =>
      by_cases h403 : status = 403
      · simp only [h403, if_pos rfl]
        exact List.mem_cons_of_mem _ hk
      · by_cases hretry : 500 ≤ status ∧ attempt < maxRetries
        · simpa [h403, hretry] using ih cache (attempt + 1) (calls + 1) k hk
        · simpa [h403, hretry] using hk
    | generic =>
      by_cases hlt : attempt < maxRetries
      · simpa [hlt] using ih cache (attempt + 1) (calls + 1) k hk
      · simpa [hlt] using hk

/-- A cached installation access token: the token string and its
`expires_at` timestamp (seconds). -/
structure TokenInfo where
  token : String
  expiresAt : Int
deriving DecidableEq

/-- The mutable state of `GitHubAppTokenManager`:
`_installation_tokens`, `_jwt_token`, `_jwt_expires_at`. -/
structure TMState where
  installationTokens : List (Nat × TokenInfo)
  jwtToken : Option String
  jwtExpiresAt : Int
deriving DecidableEq

/-- The refresh guard of `get_jwt_token`:
`not self._jwt_token or now >= self._jwt_expires_at - 60`
(`None` and the empty string are both falsy). -/
def jwtStale (st : TMState) (now : Int) : Bool :=
  (match st.jwtToken with
   | none => true
   | some t => t == "") || decide (st.jwtExpiresAt - 60 ≤ now)

/-- `get_jwt_token`: returns a valid JWT, minting a fresh one (`freshJwt`,
standing for `generate_jwt(app_id, private_key)` at time `now`) when the
cached one is absent or within 60 seconds of expiry. -/
def get_jwt_token (st : TMState) (now : Int) (freshJwt : String) :
    String × TMState :=
  if jwtStale st now then
    (freshJwt, { st with jwtToken := some freshJwt, jwtExpiresAt := now + 600 })
  else
    (st.jwtToken.getD "", st)

/-- Result of `get_installation_token`: the token returned, the manager
state afterwards, and whether a network exchange was performed. -/
structure InstallTokenResult where
  token : String
  st : TMState
  networkCall : Bool
deriving DecidableEq

/-- The cache-miss path of `get_installation_token`: refresh the JWT,
perform the `requests.post` exchange (`oracle` is its outcome; a
transport or non-2xx failure propagates via `raise_for_status`), and
cache the new token under the installation id. -/
def fetchInstallationToken (st : TMState) (now : Int) (iid : Nat)
    (freshJwt : String) (oracle : Except String TokenInfo) :
    Except String InstallTokenResult :=
  let st1 := (get_jwt_token st now freshJwt).2
  match oracle with
  | Except.error e => Except.error e
  | Except.ok ti =>
    Except.ok ⟨ti.token,
      { st1 with installationTokens := dictInsert st1.installationTokens iid ti },
      true⟩

/-- `GitHubAppTokenManager.get_installation_token`: returns the cached
token when it is still more than 300 seconds from expiry, otherwise
fetches (and caches) a fresh one. -/
def get_installation_token (st : TMState) (now : Int) (iid : Nat)
    (freshJwt : String) (oracle : Except String TokenInfo) :
    Except String InstallTokenResult :=
  match st.installationTokens.lookup iid with
  | some info =>
    if now < info.expiresAt - 300 then Except.ok ⟨info.token, st, false⟩
    else fetchInstallationToken st now iid freshJwt oracle
  | none => fetchInstallationToken st now iid freshJwt oracle

/-- Does the second list start with the first? (structural, over
characters). -/
def leadMatch : List Char → List Char → Bool
  | [], _ => true
  | _ :: _, [] => false
  | a :: as, b :: bs => a == b && leadMatch as bs

/-- `s` starts with `t`. -/
def strStartsWith (s t : String) : Bool :=
  leadMatch t.data s.data

/-- `s` ends with `t`. -/
def strEndsWith (s t : String) : Bool :=
  leadMatch t.data.reverse s.data.reverse

/-- ASCII lower-casing of a string (Python usernames and column names in
scope here are ASCII). -/
def lowerString (s : String) : String :=
  (s.data.map Char.toLower).asString

/-- The `COMPILED_BOT_PATTERNS` test on an already lower-cased username.
Each clause is one regex of `BOT_PATTERNS`, in source order, under
`re.match` with `re.IGNORECASE` (anchored at the start; `.*X$` means
"ends with X", `^X.*` means "starts with X", `^X$` means "equals X";
usernames are taken newline-free, as GitHub logins are). -/
def matchesBotLower (l : String) : Bool :=
  strEndsWith l "bot" ||
  strEndsWith l "[bot]" ||
  strStartsWith l "dependabot" ||
  strStartsWith l "renovate" ||
  strStartsWith l "github-actions" ||
  strStartsWith l "codecov" ||
  strStartsWith l "greenkeeper" ||
  strStartsWith l "snyk" ||
  strStartsWith l "whitesource" ||
  strStartsWith l "sonarcloud" ||
  l == "imgbot" ||
  strStartsWith l "allcontributors" ||
  strStartsWith l "semantic-release" ||
  strStartsWith l "stale" ||
  strStartsWith l "mergify" ||
  strStartsWith l "pre-commit-ci"

/-- Case-insensitive matching against the fixed bot-pattern table. -/
def matchesBotPattern (u : String) : Bool :=
  matchesBotLower (lowerString u)

/-- `is_bot_account(username)`: `None` and the empty string are falsy and
return `False` at once; otherwise the pattern table is scanned. -/
def is_bot_account : Option String → Bool
  | none => false
  | some u => if u == "" then false else matchesBotPattern u

/-- A contributor record as consumed by `filter_bot_contributors`:
`contrib.get('login', '')` defaults a missing login to the empty
string. -/
structure Contributor where
  login : Option String
  contributions : Nat
deriving DecidableEq

/-- `contrib.get('login', '')`. -/
def getLogin (c : Contributor) : String :=
  c.login.getD ""

/-- `filter_bot_contributors(contributors, exclude_bots)`. -/
def filter_bot_contributors (contributors : List Contributor)
    (excludeBots : Bool) : List Contributor :=
  if !excludeBots then contributors
  else contributors.filter (fun c => !is_bot_account (some (getLogin c)))

/-- The fixed `language_mappings` table of `sanitize_language_names`,
as the exact-match per-key rewrite `mappings[lang] if lang in mappings
else lang`. -/
def mapLangName (k : String) : String :=
  if k = "C#" then "CSharp"
  else if k = "C++" then "CPlusPlus"
  else if k = "F#" then "FSharp"
  else k

/-- The inner loop of `sanitize_language_names` over one `languages`
dict: each key is rewritten through the table and assigned into a fresh
dict (so a rewritten key that collides with another key overwrites it,
as Python dict assignment does). -/
def sanitizeLangsList (langs : List (String × Nat)) : List (String × Nat) :=
  langs.foldl (fun acc p => dictInsert acc (mapLangName p.1) p.2) []

/-- The slice of a repository record that `sanitize_language_names`
touches: the optional `languages` dict and the optional
`primary_language` field (a record may have either, both, or neither;
all other fields are deep-copied unchanged). -/
structure RepoRecord where
  name : String
  languages : Option (List (String × Nat))
  primaryLanguage : Option String
deriving DecidableEq

/-- Per-record body of `sanitize_language_names`: the `languages` dict is
rebuilt with rewritten keys when present, and `primary_language` is
rewritten when present and in the table (each handled independently). -/
def sanRepo (r : RepoRecord) : RepoRecord :=
  { r with
    languages := r.languages.map sanitizeLangsList,
    primaryLanguage := r.primaryLanguage.map mapLangName }

/-- `sanitize_language_names(repo_data)`. -/
def sanitize_language_names (repoData : List RepoRecord) : List RepoRecord :=
  repoData.map sanRepo

/-- Total byte count of a record's `languages` dict. -/
def langBytes (r : RepoRecord) : Nat :=
  ((r.languages.getD []).map Prod.snd).sum

/-- Python's `\s` class over ASCII: space, tab, newline, carriage
return, vertical tab, form feed. -/
def isSpaceChar (c : Char) : Bool :=
  c == ' ' || c == '\t' || c == '\n' || c == '\r' || c == '\x0b' || c == '\x0c'

/-- Python's `\w` class over ASCII: letters, digits, underscore. -/
def isWordChar (c : Char) : Bool :=
  c.isAlphanum || c == '_'

/-- `re.sub(r'\s+', '_', s)`: each maximal run of whitespace becomes one
underscore.  The flag records whether we are inside a run. -/
def collapseSpaces : List Char → Bool → List Char
  | [], _ => []
  | c :: rest, inRun =>
    if isSpaceChar c then
      if inRun then collapseSpaces rest true
      else '_' :: collapseSpaces rest true
    else c :: collapseSpaces rest false

/-- Python `str.strip(bad)` for a single character: drop it from both
ends. -/
def stripEnds (bad : Char) (l : List Char) : List Char :=
  ((l.dropWhile (fun c => c == bad)).reverse.dropWhile (fun c => c == bad)).reverse

/-- `sanitized and sanitized[0].isdigit()`. -/
def headIsDigit : List Char → Bool
  | [] => false
  | c :: _ => c.isDigit

/-- The body of `ColumnNameManager.sanitize_column_name` before the
length cap: replace invalid characters with `_`, collapse whitespace to
`_`, strip `_` from both ends, and prefix `col_` when the result starts
with a digit. -/
def baseNoCap (name : String) : List Char :=
  let s1 := name.data.map
    (fun c => if isWordChar c || isSpaceChar c || c == '-' then c else '_')
  let s2 := collapseSpaces s1 false
  let s3 := stripEnds '_' s2
  if headIsDigit s3 then "col_".data ++ s3 else s3

/-- The length cap: over 31 characters, keep 28 and append `"..."`
(Excel's column-name limit). -/
def sanitizeBase (name : String) : String :=
  if 31 < (baseNoCap name).length then
    ((baseNoCap name).take 28 ++ "...".data).asString
  else
    (baseNoCap name).asString

/-- The state of a `ColumnNameManager`: `column_mapping` and
`used_names`. -/
structure ColumnNameManager where
  columnMapping : List (String × String)
  usedNames : List String
deriving DecidableEq

/-- The duplicate-resolution `while sanitized in self.used_names` loop:
candidates are `base, orig_1, orig_2, ...`.  The loop terminates because
the candidates are pairwise distinct and `used_names` is finite; `fuel =
used_names.length + 1` membership checks are enough for exactly that
reason (among the first `length + 1` distinct candidates one is
unused). -/
def dedupFrom (used : List String) (orig : String) :
    String → Nat → Nat → String
  | cur, _counter, 0 => cur
  | cur, counter, fuel + 1 =>
    if cur ∈ used then
      dedupFrom used orig (orig ++ "_" ++ Nat.repr counter) (counter + 1) fuel
    else cur

/-- The name `sanitize_column_name` returns for `name` against the
manager's current `used_names`. -/
def dedupName (mgr : ColumnNameManager) (name : String) : String :=
  dedupFrom mgr.usedNames (sanitizeBase name) (sanitizeBase name) 1
    (mgr.usedNames.length + 1)

/-- `ColumnNameManager.sanitize_column_name`: returns the sanitized name
and the updated manager (the name recorded in `column_mapping` and
`used_names`). -/
def sanitize_column_name (mgr : ColumnNameManager) (name : String) :
    String × ColumnNameManager :=
  (dedupName mgr name,
   ⟨dictInsert mgr.columnMapping name (dedupName mgr name),
    mgr.usedNames ++ [dedupName mgr name]⟩)

/-- `sep in s`. -/
def hasChar (sep : Char) (l : List Char) : Bool :=
  l.any (fun c => c == sep)

/-- Python `str.split(sep)` for a one-character separator: splits at
every occurrence, keeping empty pieces. -/
def splitChar (sep : Char) : List Char → List (List Char)
  | [] => [[]]
  | c :: rest =>
    if c == sep then [] :: splitChar sep rest
    else
      match splitChar sep rest with
      | [] => [[c]]
      | g :: gs => (c :: g) :: gs

/-- Python `str.split(':', 1)`: the part before the first colon and the
part after it. -/
def splitColonOnce : List Char → List Char × List Char
  | [] => ([], [])
  | c :: rest =>
    if c == ':' then ([], rest)
    else ((c :: (splitColonOnce rest).1), (splitColonOnce rest).2)

/-- Python `str.strip()`: drop whitespace from both ends. -/
def stripWs (l : List Char) : List Char :=
  ((l.dropWhile isSpaceChar).reverse.dropWhile isSpaceChar).reverse

/-- Value of a non-empty all-digit string; `none` (Python `ValueError`)
otherwise. -/
def digitsVal (l : List Char) : Option Nat :=
  if l.isEmpty then none
  else
    l.foldl
      (fun acc c =>
        match acc with
        | none => none
        | some n => if c.isDigit then some (n * 10 + (c.toNat - 48)) else none)
      (some 0)

/-- Python `int(s)`: surrounding whitespace tolerated, optional sign,
then digits; `none` stands for the raised `ValueError`. -/
def pyInt (l : List Char) : Option Int :=
  match stripWs l with
  | '-' :: rest => (digitsVal rest).map (fun n => -(n : Int))
  | '+' :: rest => (digitsVal rest).map (fun n => (n : Int))
  | t => (digitsVal t).map (fun n => (n : Int))

/-- `parse_installation_ids(installation_str)`: a comma-separated list
assigns each `org:id` pair to its organization and each bare id to
`"default"`; without a comma, a single `org:id` or bare id is parsed the
same way.  `none` stands for a propagated `ValueError` from `int()`. -/
def parse_installation_ids (s : String) : Option (List (String × Int)) :=
  if hasChar ',' s.data then
    (splitChar ',' s.data).foldlM
      (fun acc pair =>
        if hasChar ':' pair then
          match pyInt (splitColonOnce (stripWs pair)).2 with
          | none => none
          | some v =>
            some (dictInsert acc
              ((stripWs (splitColonOnce (stripWs pair)).1).asString) v)
        else
          match pyInt pair with
          | none => none
          | some v => some (dictInsert acc "default" v))
      []
  else
    if hasChar ':' s.data then
      match pyInt (splitColonOnce s.data).2 with
      | none => none
      | some v =>
        some (dictInsert [] ((stripWs (splitColonOnce s.data).1).asString) v)
    else
      (pyInt s.data).map (fun v => dictInsert [] "default" v)

/-- The per-organization repository cap in `main`:
`org_max_repos = max_repos // len(orgs) if len(orgs) > 1 else max_repos`. -/
def orgMaxRepos (maxRepos numOrgs : Nat) : Nat :=
  if 1 < numOrgs then maxRepos / numOrgs else maxRepos

/-- The truncation in `main`: `filtered_repos[:org_max_repos]` applied
only when the filtered list is longer than the cap. -/
def limit_repos_per_org {R : Type} (filteredRepos : List R)
    (maxRepos numOrgs : Nat) : List R :=
  if orgMaxRepos maxRepos numOrgs < filteredRepos.length then
    filteredRepos.take (orgMaxRepos maxRepos numOrgs)
  else filteredRepos

/-- C1: `robust_github_call` never propagates an exception: for every
operation behavior, every retry budget, every cache key and every
starting cache, its result is a normal return (`Except.ok`) — some value
or Python's `None` — never a raised error. -/
theorem robust_github_call_never_raises {V : Type} (behavior : Nat → AttemptRes V)
    (maxRetries : Nat) (key : String) (cache : List String) :
    ∃ o : Option V,
      (robust_github_call behavior maxRetries key cache).result = Except.ok o :=
  robustLoop_no_raise behavior maxRetries key (maxRetries + 1) cache 0 0

/-- C2: a 403 Forbidden outcome makes `robust_github_call` add the call's
key to the forbidden cache; any `gh_safe` call whose key is already in the
cache returns `None` immediately, with no invocation of the operation and
the cache unchanged; and keys already in the cache survive any
`robust_github_call` (they are never removed during the run). -/
theorem forbidden_cache_spec {V : Type} (behavior b2 : Nat → AttemptRes V)
    (maxRetries mr2 : Nat) (key k : String) (cache cache2 : List String)
    (h403 : behavior 0 = AttemptRes.ghExc 403)
    (hmem : key ∈ cache2) (hk : k ∈ cache) :
    key ∈ (robust_github_call behavior maxRetries key cache).cache ∧
    gh_safe b2 mr2 key cache2 = ⟨Except.ok none, cache2, 0⟩ ∧
    k ∈ (robust_github_call behavior maxRetries key cache).cache := by
  refine ⟨?_, ?_, ?_⟩
  · show key ∈ (robustLoop behavior maxRetries key cache 0 (maxRetries + 1) 0).cache
    rw [robustLoop, h403]
    simp
  · simp [gh_safe, hmem]
  · exact robustLoop_cache_mono behavior maxRetries key (maxRetries + 1) cache 0 0 k hk

/-- Witness for C2 at a concrete forbidden call. -/
theorem forbidden_cache_spec_witness :
    "get_repo:(1,)" ∈ (robust_github_call (V := Nat) (fun _ => AttemptRes.ghExc 403)
      0 "get_repo:(1,)" ["get_workflows:()"]).cache ∧
    gh_safe (V := Nat) (fun _ => AttemptRes.ok 7) 3 "get_repo:(1,)"
      ["get_repo:(1,)"] = ⟨Except.ok none, ["get_repo:(1,)"], 0⟩ ∧
    "get_workflows:()" ∈ (robust_github_call (V := Nat)
      (fun _ => AttemptRes.ghExc 403) 0 "get_repo:(1,)" ["get_workflows:()"]).cache :=
  forbidden_cache_spec (fun _ => AttemptRes.ghExc 403) (fun _ => AttemptRes.ok 7)
    0 3 "get_repo:(1,)" "get_workflows:()" ["get_workflows:()"] ["get_repo:(1,)"]
    rfl (by decide) (by decide)

/-- C4: an operation that raises a generic exception on every invocation,
run with `max_retries = 1`, is invoked exactly 2 times (initial attempt
plus one retry) and the call returns `None`. -/
theorem robust_github_call_generic_twice {V : Type} (behavior : Nat → AttemptRes V)
    (key : String) (cache : List String)
    (hgen : ∀ n, behavior n = AttemptRes.generic) :
    (robust_github_call behavior 1 key cache).calls = 2 ∧
    (robust_github_call behavior 1 key cache).result = Except.ok none := by
  show (robustLoop behavior 1 key cache 0 2 0).calls = 2 ∧
    (robustLoop behavior 1 key cache 0 2 0).result = Except.ok none
  rw [robustLoop, hgen 0]
  simp only [Nat.zero_lt_one, if_true]
  rw [robustLoop, hgen 1]
  simp

/-- Witness for C4 at a concrete always-failing operation. -/
theorem robust_github_call_generic_twice_witness :
    (robust_github_call (V := Nat) (fun _ => AttemptRes.generic) 1 "f:()" []).calls = 2 ∧
    (robust_github_call (V := Nat) (fun _ => AttemptRes.generic) 1 "f:()" []).result
      = Except.ok none :=
  robust_github_call_generic_twice (fun _ => AttemptRes.generic) "f:()" []
    (fun _ => rfl)

/-- C3: when a cached entry for the installation id is still more than
300 seconds from expiry, `get_installation_token` returns the cached
token unchanged, performs no network request, and leaves the manager
state unchanged; hence a second call within the validity window (at any
time `now2` still in the window, with any JWT and any network oracle)
returns the very same token. -/
theorem get_installation_token_cached (st : TMState) (now now2 : Int)
    (iid : Nat) (freshJwt freshJwt2 : String)
    (oracle oracle2 : Except String TokenInfo) (info : TokenInfo)
    (hc : st.installationTokens.lookup iid = some info)
    (hv : now < info.expiresAt - 300) (hv2 : now2 < info.expiresAt - 300) :
    get_installation_token st now iid freshJwt oracle
      = Except.ok ⟨info.token, st, false⟩ ∧
    get_installation_token st now2 iid freshJwt2 oracle2
      = Except.ok ⟨info.token, st, false⟩ := by
  constructor
  · rw [get_installation_token, hc]
    simp [hv]
  · rw [get_installation_token, hc]
    simp [hv2]

/-- Witness for C3 at a concrete cached token. -/
theorem get_installation_token_cached_witness :
    get_installation_token ⟨[(5, ⟨"tokA", 1000⟩)], none, 0⟩ 100 5 "jwt1"
      (Except.error "net down")
      = Except.ok ⟨"tokA", ⟨[(5, ⟨"tokA", 1000⟩)], none, 0⟩, false⟩ ∧
    get_installation_token ⟨[(5, ⟨"tokA", 1000⟩)], none, 0⟩ 200 5 "jwt2"
      (Except.ok ⟨"tokB", 9999⟩)
      = Except.ok ⟨"tokA", ⟨[(5, ⟨"tokA", 1000⟩)], none, 0⟩, false⟩ :=
  get_installation_token_cached ⟨[(5, ⟨"tokA", 1000⟩)], none, 0⟩ 100 200 5
    "jwt1" "jwt2" (Except.error "net down") (Except.ok ⟨"tokB", 9999⟩)
    ⟨"tokA", 1000⟩ (by decide) (by decide) (by decide)

/-- C7: `is_bot_account` is case-insensitive on the fixed bot-pattern
table — if some username matches, every case variant of it (any string
with the same lower-casing) is also classified as a bot — and the absent
username (`None`) and the empty string are never bots. -/
theorem is_bot_account_spec (u v : String)
    (hcase : lowerString u = lowerString v)
    (hmatch : matchesBotPattern u = true) (hv : v ≠ "") :
    is_bot_account (some v) = true ∧
    is_bot_account none = false ∧
    is_bot_account (some "") = false := by
  refine ⟨?_, rfl, rfl⟩
  have hvm : matchesBotPattern v = true := by
    rw [matchesBotPattern, ← hcase, ← matchesBotPattern]
    exact hmatch
  have hvb : (v == "") = false := by
    simp [hv]
  rw [is_bot_account, hvb]
  simpa using hvm

/-- Witness for C7: "DePendaBot-Helper" matches `^dependabot.*`
case-insensitively, so its case variant "dependabot-helper" is a bot. -/
theorem is_bot_account_spec_witness :
    is_bot_account (some "dependabot-helper") = true ∧
    is_bot_account none = false ∧
    is_bot_account (some "") = false :=
  is_bot_account_spec "DePendaBot-Helper" "dependabot-helper" (by decide)
    (by decide) (by decide)

/-- C8: `filter_bot_contributors` with `exclude_bots=False` returns the
input unchanged; with `exclude_bots=True` it returns a subsequence of
the input (relative order preserved), keeps exactly the entries whose
login is not bot-matched, and never removes an entry with an empty or
missing login. -/
theorem filter_bot_contributors_spec (contributors : List Contributor) :
    filter_bot_contributors contributors false = contributors ∧
    (filter_bot_contributors contributors true).Sublist contributors ∧
    (∀ c, c ∈ filter_bot_contributors contributors true ↔
        c ∈ contributors ∧ is_bot_account (some (getLogin c)) = false) ∧
    (∀ c, c ∈ contributors → (c.login = none ∨ c.login = some "") →
        c ∈ filter_bot_contributors contributors true) := by
  refine ⟨rfl, ?_, ?_, ?_⟩
  · exact List.filter_sublist (l := contributors)
      (p := fun c => !is_bot_account (some (getLogin c)))
  · intro c
    simp [filter_bot_contributors, List.mem_filter]
  · intro c hc hl
    have hlogin : getLogin c = "" := by
      rcases hl with h | h <;> simp [getLogin, h]
    have hbot : is_bot_account (some (getLogin c)) = false := by
      rw [hlogin]; rfl
    simp [filter_bot_contributors, List.mem_filter, hc, hbot]

/-- Witness for C8 on a concrete contributor list (one human, one bot,
one missing login). -/
theorem filter_bot_contributors_spec_witness :
    filter_bot_contributors
      [⟨some "alice", 3⟩, ⟨some "dependabot[bot]", 9⟩, ⟨none, 1⟩] false
      = [⟨some "alice", 3⟩, ⟨some "dependabot[bot]", 9⟩, ⟨none, 1⟩] :=
  (filter_bot_contributors_spec
    [⟨some "alice", 3⟩, ⟨some "dependabot[bot]", 9⟩, ⟨none, 1⟩]).1

theorem dictInsert_fresh {κ α : Type} [DecidableEq κ] (l : List (κ × α))
    (k : κ) (v : α) (hk : k ∉ l.map Prod.fst) :
    dictInsert l k v = l ++ [(k, v)] := by
  simp [dictInsert, hk]

theorem sanitizeLangs_foldl (langs : List (String × Nat)) :
    ∀ acc : List (String × Nat),
      (langs.map (fun p => mapLangName p.1)).Nodup →
      (∀ p ∈ langs, mapLangName p.1 ∉ acc.map Prod.fst) →
      langs.foldl (fun acc p => dictInsert acc (mapLangName p.1) p.2) acc
        = acc ++ langs.map (fun p => (mapLangName p.1, p.2)) := by
  induction langs with
  | nil => intro acc _ _; simp
  | cons a l ih =>
    intro acc hnd hdisj
    have hnd' : ((a :: l).map (fun p => mapLangName p.1)).Nodup := hnd
    rw [List.map_cons, List.nodup_cons] at hnd'
    simp only [List.foldl_cons]
    rw [dictInsert_fresh _ _ _ (hdisj a (List.mem_cons_self a l))]
    rw [ih (acc ++ [(mapLangName a.1, a.2)]) hnd'.2 ?frontier]
    · simp
    case frontier =>
      intro p hp
      simp only [List.map_append, List.mem_append]
      rintro (h | h)
      · exact hdisj p (List.mem_cons_of_mem a hp) h
      · have hpa : mapLangName p.1 = mapLangName a.1 := by
          simpa using h
        exact hnd'.1 (hpa ▸ List.mem_map_of_mem (fun p => mapLangName p.1) hp)

/-- C5 (amended): language-name rewriting is exact-match only on the
fixed three-entry table — any other key, including case variants such as
"c#", passes through unchanged — and the concrete example
`{"C#":1,"c#":1,"C++":1}` sanitizes to
`{"CSharp":1,"c#":1,"CPlusPlus":1}`; and for every `languages` dict
whose rewritten keys are pairwise distinct (no collision such as "C#"
next to an existing "CSharp" key), the dict is rewritten pointwise and
the total byte sum is unchanged.  (Unamended, the byte-sum clause is
false: a collision makes the later assignment overwrite the earlier
one — see the counterexample.) -/
theorem sanitize_language_names_ok (repoData : List RepoRecord)
    (langs : List (String × Nat))
    (hnd : (langs.map (fun p => mapLangName p.1)).Nodup) :
    (∀ k, k ≠ "C#" → k ≠ "C++" → k ≠ "F#" → mapLangName k = k) ∧
    sanitizeLangsList langs = langs.map (fun p => (mapLangName p.1, p.2)) ∧
    ((sanitizeLangsList langs).map Prod.snd).sum = (langs.map Prod.snd).sum ∧
    sanitize_language_names repoData = repoData.map sanRepo ∧
    sanitize_language_names
        [⟨"r", some [("C#", 1), ("c#", 1), ("C++", 1)], none⟩]
      = [⟨"r", some [("CSharp", 1), ("c#", 1), ("CPlusPlus", 1)], none⟩] := by
  have hfold := sanitizeLangs_foldl langs [] hnd (by simp)
  have hpt : sanitizeLangsList langs
      = langs.map (fun p => (mapLangName p.1, p.2)) := by
    simpa [sanitizeLangsList] using hfold
  refine ⟨?_, hpt, ?_, rfl, by decide⟩
  · intro k h1 h2 h3
    simp [mapLangName, h1, h2, h3]
  · rw [hpt, List.map_map]
    have hsnd : (Prod.snd ∘ fun p : String × Nat => (mapLangName p.1, p.2))
        = Prod.snd := rfl
    rw [hsnd]

/-- Witness for C5 at the spec's concrete example. -/
theorem sanitize_language_names_ok_witness :
    sanitize_language_names
        [⟨"r", some [("C#", 1), ("c#", 1), ("C++", 1)], none⟩]
      = [⟨"r", some [("CSharp", 1), ("c#", 1), ("CPlusPlus", 1)], none⟩] :=
  (sanitize_language_names_ok [] [("C#", 1), ("c#", 1), ("C++", 1)]
    (by decide)).2.2.2.2

/-- C5 counterexample: the byte-sum clause of the claim is false as
stated.  For the `languages` dict `{"C#":1,"CSharp":2}` the rewrite of
"C#" collides with the existing "CSharp" key, whose later assignment
overwrites it: the sanitized dict is `{"CSharp":2}`, with byte sum 2
where the input had 3. -/
theorem sanitize_language_sum_counterexample :
    ¬ ((sanitize_language_names [⟨"r", some [("C#", 1), ("CSharp", 2)], none⟩]).map
          langBytes
        = [RepoRecord.mk "r" (some [("C#", 1), ("CSharp", 2)]) none].map langBytes) := by
  decide

theorem leadMatch_append (p r : List Char) : leadMatch p (p ++ r) = true := by
  induction p with
  | nil => rfl
  | cons a as ih => simp [leadMatch, ih]

theorem length_asString (l : List Char) : (l.asString).length = l.length := rfl

theorem dedupFrom_succ (used : List String) (orig cur : String)
    (counter fuel : Nat) :
    dedupFrom used orig cur counter (fuel + 1)
      = if cur ∈ used then
          dedupFrom used orig (orig ++ "_" ++ Nat.repr counter) (counter + 1) fuel
        else cur := rfl

theorem sanitizeBase_length_le (name : String) :
    (sanitizeBase name).length ≤ 31 := by
  rw [sanitizeBase]
  by_cases h : 31 < (baseNoCap name).length
  · rw [if_pos h, length_asString, List.length_append, List.length_take]
    have h3 : ("...".data).length = 3 := rfl
    rw [h3]
    omega
  · rw [if_neg h, length_asString]
    omega

theorem sanitizeBase_overlong (name : String)
    (h : 31 < (baseNoCap name).length) :
    strEndsWith (sanitizeBase name) "..." = true := by
  rw [sanitizeBase, if_pos h, strEndsWith]
  show leadMatch ("...".data.reverse)
    (((baseNoCap name).take 28 ++ "...".data).reverse) = true
  rw [List.reverse_append]
  exact leadMatch_append _ _

/-- C6 (amended): `sanitize_column_name` returns a name of at most 31
characters whenever the sanitized base name is not already in use, with
over-long inputs truncated so the result ends in the `"..."` marker; and
sanitizing two equal inputs in sequence yields two distinct outputs, the
second carrying the numeric suffix `_1`.  (Unamended, the ≤ 31 clause is
false: the numeric suffix is appended after the length cap, so the
second of two equal over-long inputs gets 33 characters — see the
counterexample.) -/
theorem sanitize_column_name_ok (name : String) (mgr : ColumnNameManager)
    (hfresh : sanitizeBase name ∉ mgr.usedNames)
    (hlong : 31 < (baseNoCap name).length) :
    (sanitize_column_name mgr name).1 = sanitizeBase name ∧
    (sanitize_column_name mgr name).1.length ≤ 31 ∧
    strEndsWith (sanitize_column_name mgr name).1 "..." = true ∧
    (sanitize_column_name (sanitize_column_name ⟨[], []⟩ name).2 name).1
      = sanitizeBase name ++ "_" ++ "1" ∧
    (sanitize_column_name ⟨[], []⟩ name).1
      ≠ (sanitize_column_name (sanitize_column_name ⟨[], []⟩ name).2 name).1 := by
  have hrepr : Nat.repr 1 = "1" := rfl
  have hbne : sanitizeBase name ++ "_" ++ Nat.repr 1 ≠ sanitizeBase name := by
    intro h
    have hlen := congrArg String.length h
    rw [String.length_append, String.length_append] at hlen
    have hu : ("_" : String).length = 1 := rfl
    have h1 : (Nat.repr 1).length = 1 := rfl
    rw [hu, h1] at hlen
    omega
  have hfreshEq : (sanitize_column_name mgr name).1 = sanitizeBase name := by
    show dedupName mgr name = sanitizeBase name
    rw [dedupName, dedupFrom_succ, if_neg hfresh]
  have hr1 : (sanitize_column_name ⟨[], []⟩ name).1 = sanitizeBase name := by
    show dedupName ⟨[], []⟩ name = sanitizeBase name
    rw [dedupName, dedupFrom_succ]
    simp
  have hm1 : (sanitize_column_name ⟨[], []⟩ name).2.usedNames
      = [sanitizeBase name] := by
    show [] ++ [dedupName ⟨[], []⟩ name] = [sanitizeBase name]
    rw [List.nil_append]
    exact congrArg (fun s => [s]) hr1
  have hdedup2 : (sanitize_column_name (sanitize_column_name ⟨[], []⟩ name).2 name).1
      = sanitizeBase name ++ "_" ++ Nat.repr 1 := by
    show dedupName (sanitize_column_name ⟨[], []⟩ name).2 name = _
    rw [dedupName, hm1]
    simp only [List.length_singleton, dedupFrom, List.mem_singleton]
    rw [if_pos trivial, if_neg hbne]
  refine ⟨hfreshEq, ?_, ?_, ?_, ?_⟩
  · rw [hfreshEq]; exact sanitizeBase_length_le name
  · rw [hfreshEq]; exact sanitizeBase_overlong name hlong
  · rw [hdedup2, hrepr]
  · rw [hdedup2, hr1]
    intro h
    exact hbne h.symm

/-- Witness for C6 at a concrete 40-character duplicate input. -/
theorem sanitize_column_name_ok_witness :
    (sanitize_column_name
        (sanitize_column_name ⟨[], []⟩
          "aaaaaaaaaaaaaaaaaaaaaaaaaaaaaaaaaaaaaaaa").2
        "aaaaaaaaaaaaaaaaaaaaaaaaaaaaaaaaaaaaaaaa").1
      = sanitizeBase "aaaaaaaaaaaaaaaaaaaaaaaaaaaaaaaaaaaaaaaa" ++ "_" ++ "1" :=
  (sanitize_column_name_ok "aaaaaaaaaaaaaaaaaaaaaaaaaaaaaaaaaaaaaaaa" ⟨[], []⟩
    (by decide) (by decide)).2.2.2.1

/-- C6 counterexample: the "at most 31 characters for every input" clause
is false as stated: sanitizing the same 40-character name twice on the
same manager, the second result is the 31-character truncation plus the
suffix `_1` — 33 characters. -/
theorem sanitize_column_name_length_counterexample :
    ¬ ((sanitize_column_name
        (sanitize_column_name ⟨[], []⟩
          "aaaaaaaaaaaaaaaaaaaaaaaaaaaaaaaaaaaaaaaa").2
        "aaaaaaaaaaaaaaaaaaaaaaaaaaaaaaaaaaaaaaaa").1.length ≤ 31) := by
  decide

/-- C9: `parse_installation_ids` maps `"12345"` to
`{"default": 12345}` and `"org1:111,222,org3:333"` to
`{"org1": 111, "default": 222, "org3": 333}`: a comma-separated pair
with a colon binds the named organization, a pair without a colon binds
the `"default"` key. -/
theorem parse_installation_ids_ok :
    parse_installation_ids "12345" = some [("default", 12345)] ∧
    parse_installation_ids "org1:111,222,org3:333"
      = some [("org1", 111), ("default", 222), ("org3", 333)] := by
  constructor <;> decide

/-- C10: with more than one organization, each organization's filtered
repository list is cut to `max_repos / numOrgs` entries (floor
division) — never to `max_repos` itself — so no organization contributes
more than `max_repos / numOrgs` records; with a single organization the
cap is `max_repos`. -/
theorem limit_repos_per_org_spec {R : Type} (filteredRepos : List R)
    (maxRepos numOrgs : Nat) (hN : 1 < numOrgs) :
    limit_repos_per_org filteredRepos maxRepos numOrgs
      = filteredRepos.take (maxRepos / numOrgs) ∧
    (limit_repos_per_org filteredRepos maxRepos numOrgs).length
      ≤ maxRepos / numOrgs ∧
    limit_repos_per_org filteredRepos maxRepos 1
      = filteredRepos.take maxRepos := by
  have hcap : orgMaxRepos maxRepos numOrgs = maxRepos / numOrgs := by
    rw [orgMaxRepos, if_pos hN]
  have hgen : ∀ cap : Nat,
      (if cap < filteredRepos.length then filteredRepos.take cap
       else filteredRepos) = filteredRepos.take cap := by
    intro cap
    by_cases h : cap < filteredRepos.length
    · rw [if_pos h]
    · rw [if_neg h, List.take_of_length_le (Nat.le_of_not_lt h)]
  refine ⟨?_, ?_, ?_⟩
  · rw [limit_repos_per_org, hcap]
    exact hgen _
  · rw [limit_repos_per_org, hcap, hgen _, List.length_take]
    omega
  · have hcap1 : orgMaxRepos maxRepos 1 = maxRepos := by
      rw [orgMaxRepos, if_neg (by omega)]
    rw [limit_repos_per_org, hcap1]
    exact hgen _

/-- Witness for C10: five repositories, `max_repos = 5`, two
organizations: the cap is `5 / 2 = 2`. -/
theorem limit_repos_per_org_spec_witness :
    limit_repos_per_org ([0, 1, 2, 3, 4] : List Nat) 5 2
      = ([0, 1, 2, 3, 4] : List Nat).take (5 / 2) :=
  (limit_repos_per_org_spec [0, 1, 2, 3, 4] 5 2 (by decide)).1

end GithubOrgStats
